import Mathlib

/-!
# Verification of the Ternoa validator exporter

Shallow embedding of `src/exporter/ternoa-exporter.py`.

Modelling conventions:
* Python floats over raw 18-decimal chain balances are modelled as rationals
  (`ℚ`); the literal `1e18` becomes the rational constant `E18`.
* Every chain query performed through the substrate client is modelled by an
  oracle field of `ChainData`; a query that raises an exception is an
  `Except.error ()`, a query that returns a falsy value (Python `None`, empty
  containers, zero wrappers) is an `Except.ok none`.
* The ad-hoc shape probing on decoded chain values (`isinstance` checks,
  `hasattr`, `dict.get`) is absorbed into the typed oracles: a payload that
  does not have the expected shape is delivered as `none` / `Except.error`.
* Prometheus gauge writes are modelled as an explicit list of `Emission`
  values produced by each function; a gauge that is not written simply has no
  corresponding emission.
* The module-level mutable `previous_stakes` dict is modelled by explicit
  state passing: `update_metrics` receives the previous map and returns the
  map the global holds after the call (unchanged when an exception escapes,
  since the Python assignment `previous_stakes = validator_stakes` is the last
  statement of the `try` body).
* Python dicts keyed by validator address are modelled as association lists
  `List (String × _)` looked up with `List.find?`.
-/

/-- `1e18`, the CAPS fixed-point scale. -/
def E18 : ℚ := 1000000000000000000

/-- The per-validator stake snapshot dict built by `get_validator_stakes`. -/
structure Snapshot where
  self_stake : ℚ
  total_stake : ℚ
  nominations : ℚ
  nominator_count : ℕ
  rewards : ℚ
  slashes : ℚ
deriving DecidableEq, Repr

/-- The all-zero snapshot assigned on a per-validator processing error. -/
def zeroSnapshot : Snapshot :=
  { self_stake := 0, total_stake := 0, nominations := 0,
    nominator_count := 0, rewards := 0, slashes := 0 }

/-- Decoded `Staking.ErasStakers` exposure value: raw `own` and `total`
balances and the `others` nominator list (only its length is used). -/
structure Exposure where
  own : ℚ
  total : ℚ
  others : List String
deriving DecidableEq, Repr

/-- A decoded identity field value as seen by `extract_identity_value`:
either falsy / `\x7b'None': ...\x7d` (yielding `""`), a `\x7b'Raw': s\x7d`
dict, or any other value rendered via `str` / `decode`. -/
inductive RawVal where
  | noneVal : RawVal
  | raw (s : String) : RawVal
  | plain (s : String) : RawVal
deriving DecidableEq, Repr

/-- `extract_identity_value` (source lines 88-102). -/
def extract_identity_value : RawVal → String
  | .noneVal => ""
  | .raw s => s
  | .plain s => s

/-- Decoded `Identity.IdentityOf` info dict: the six identity fields. -/
structure RawIdInfo where
  display : RawVal
  legal : RawVal
  web : RawVal
  riot : RawVal
  email : RawVal
  twitter : RawVal
deriving DecidableEq, Repr

/-- The identity record `get_identities` produces per wallet. -/
structure IdRecord where
  display : String
  legal : String
  web : String
  riot : String
  email : String
  twitter : String
deriving DecidableEq, Repr

/-- The default identity record (all fields empty strings). -/
def emptyIdentity : IdRecord :=
  { display := "", legal := "", web := "", riot := "", email := "", twitter := "" }

/-- Oracles for the substrate queries the exporter issues.  Each field models
one storage query; `Except.error ()` is a raised exception, an inner `none`
is a falsy / absent value. -/
structure ChainData where
  /-- `query_map("Staking", "Validators")`, already stringified. -/
  validatorsList : Except Unit (List String)
  /-- `query("Session", "Validators")`, already stringified. -/
  sessionValidators : Except Unit (List String)
  /-- `query("Staking", "ActiveEra").value["index"]`. -/
  activeEra : Except Unit ℕ
  /-- `query("Staking", "ErasStakers", [era, validator])` plus the balance
  conversions on its `.value`; an error models either the query or the
  conversion raising. -/
  exposure : ℕ → String → Except Unit (Option Exposure)
  /-- `query("Staking", "ErasRewardPoints", [era])` decoded to
  `(address, points)` pairs; `none` models a falsy result, a value without
  `.value`, or a non-list payload. -/
  rewardPoints : ℕ → Except Unit (Option (List (String × ℚ)))
  /-- `query("Staking", "ErasValidatorReward", [era])`; `none` models a falsy
  wrapper or falsy `.value` (including a raw pool of 0). -/
  eraReward : ℕ → Except Unit (Option ℚ)
  /-- `query("Identity", "SuperOf", [wallet])`: parent wallet and raw
  sub-identity name; `none` models a falsy wrapper or value. -/
  superOf : String → Except Unit (Option (String × RawVal))
  /-- `query("Identity", "IdentityOf", [wallet])` decoded `info` dict;
  `none` models a falsy wrapper or value. -/
  identityOf : String → Except Unit (Option RawIdInfo)

/-- Prometheus gauge writes, one constructor per gauge family, carrying the
label values and the value passed to `.set`. -/
inductive Emission where
  | selfStake (validator name status : String) (value : ℚ)
  | capsIn (validator name ty : String) (value : ℚ)
  | capsOut (validator name ty : String) (value : ℚ)
  | rewards (validator name era : String) (value : ℚ)
  | nominations (validator name status : String) (value : ℚ)
  | totalStake (validator name status : String) (value : ℚ)
  | nominatorCount (validator name status : String) (value : ℚ)
deriving DecidableEq, Repr

/-- Is this a write to the `ternoa_validator_rewards` gauge? -/
def Emission.isRewards : Emission → Bool
  | .rewards _ _ _ _ => true
  | _ => false

/-- `get_era_rewards` (source lines 104-145).  Sums all points, finds the
validator's own points (first match wins), substitutes 1 for a zero total,
fetches the era reward pool, scales it by `1e18` and returns the
proportional share; every failure path returns `0.0`. -/
def get_era_rewards (c : ChainData) (validator : String) (era_index : ℕ) : ℚ :=
  match c.rewardPoints era_index with
  | .error _ => 0
  | .ok none => 0
  | .ok (some table) =>
      let total_points0 : ℚ := (table.map Prod.snd).sum
      let validator_points : ℚ :=
        ((table.find? fun e => e.1 == validator).map Prod.snd).getD 0
      let total_points : ℚ := if total_points0 = 0 then 1 else total_points0
      match c.eraReward era_index with
      | .error _ => 0
      | .ok none => 0
      | .ok (some rawPool) =>
          let total_reward := rawPool / E18
          (validator_points / total_points) * total_reward

/-- `get_era_slashes` (source lines 147-152): unconditional stub. -/
def get_era_slashes (_c : ChainData) (_validator : String) (_era_index : ℕ) : ℚ :=
  0

/-- `track_stake_movements` (source lines 154-181): the returned pair and the
list of gauge writes performed. -/
def track_stake_movements (validator name : String) (current_stake : ℚ)
    (previous_stake : Option ℚ) : (ℚ × ℚ) × List Emission :=
  match previous_stake with
  | none => ((0, 0), [])
  | some prev =>
      let stake_difference := current_stake - prev
      if 0 < stake_difference then
        ((stake_difference, 0),
         [Emission.capsIn validator name "nomination" stake_difference])
      else if stake_difference < 0 then
        let abs_difference := |stake_difference|
        ((0, abs_difference),
         [Emission.capsOut validator name "unstake" abs_difference])
      else ((0, 0), [])

/-- The body of the per-validator loop of `get_validator_stakes` (source
lines 189-218): `none` when the falsy-exposure guard skips the validator,
`some zeroSnapshot` when processing raised, otherwise the populated
snapshot. -/
def process_validator (c : ChainData) (era_index : ℕ) (validator : String) :
    Option Snapshot :=
  match c.exposure era_index validator with
  | .error _ => some zeroSnapshot
  | .ok none => none
  | .ok (some exp) =>
      let own := exp.own / E18
      let total := exp.total / E18
      let others := total - own
      let nominators := exp.others.length
      let rewards := get_era_rewards c validator era_index
      let slashes := get_era_slashes c validator era_index
      some { self_stake := own, total_stake := total, nominations := others,
             nominator_count := nominators, rewards := rewards,
             slashes := slashes }

/-- The stakes dict built from a per-validator processing function: one
entry per validator the function keeps, keyed by the validator address. -/
def stakesOf (f : String → Option Snapshot) (validators : List String) :
    List (String × Snapshot) :=
  validators.filterMap fun v => (f v).map fun s => (v, s)

/-- `get_validator_stakes` (source lines 183-223): reads the active era
(re-raising on failure) and builds the stakes dict validator by validator. -/
def get_validator_stakes (c : ChainData) (validators : List String) :
    Except Unit (List (String × Snapshot)) :=
  match c.activeEra with
  | .error e => .error e
  | .ok era_index => .ok (stakesOf (process_validator c era_index) validators)

/-- The per-wallet body of `get_identities` (source lines 228-295).  When a
parent relationship exists, the display is `parentDisplay/subName` if the
parent's identity record has a non-empty display, else just the sub name —
but only when the parent's `IdentityOf` record exists and is truthy; in
every other case the default all-empty record survives. -/
def get_identity (c : ChainData) (wallet : String) : IdRecord :=
  match c.superOf wallet with
  | .error _ => emptyIdentity
  | .ok (some (parent_wallet, sub_identity_raw)) =>
      let sub_identity_name := extract_identity_value sub_identity_raw
      match c.identityOf parent_wallet with
      | .error _ => emptyIdentity
      | .ok none => emptyIdentity
      | .ok (some info) =>
          let display_name := extract_identity_value info.display
          { display :=
              if display_name = "" then sub_identity_name
              else display_name ++ "/" ++ sub_identity_name,
            legal := extract_identity_value info.legal,
            web := extract_identity_value info.web,
            riot := extract_identity_value info.riot,
            email := extract_identity_value info.email,
            twitter := extract_identity_value info.twitter }
  | .ok none =>
      match c.identityOf wallet with
      | .error _ => emptyIdentity
      | .ok none => emptyIdentity
      | .ok (some info) =>
          { display := extract_identity_value info.display,
            legal := extract_identity_value info.legal,
            web := extract_identity_value info.web,
            riot := extract_identity_value info.riot,
            email := extract_identity_value info.email,
            twitter := extract_identity_value info.twitter }

/-- `get_identities` (source lines 225-297): one record per wallet. -/
def get_identities (c : ChainData) (wallets : List String) :
    List (String × IdRecord) :=
  wallets.map fun w => (w, get_identity c w)

/-- Status classification in `update_metrics` (source line 316). -/
def resolve_status (active_validators : List String) (validator : String) :
    String :=
  if validator ∈ active_validators then "active" else "waiting"

/-- Name resolution in `update_metrics` (source line 317): the resolved
display name, or the first 20 characters of the address when it is empty. -/
def resolve_name (validators_id : List (String × IdRecord)) (validator : String) :
    String :=
  let display :=
    ((validators_id.find? fun p => p.1 == validator).map fun p => p.2.display).getD ""
  if display = "" then validator.take 20 else display

/-- The per-validator body of the `update_metrics` loop (source lines
315-358): movement gauge writes, the four unconditional stake gauges, then
the rewards gauge guarded by `rewards > 0`. -/
def emit_validator (previous_stakes : List (String × Snapshot))
    (active_validators : List String) (validators_id : List (String × IdRecord))
    (current_era : ℕ) (validator : String) (stake_info : Snapshot) :
    List Emission :=
  let status := resolve_status active_validators validator
  let name := resolve_name validators_id validator
  let current_total := stake_info.total_stake
  let previous_total :=
    (previous_stakes.find? fun p => p.1 == validator).map fun p => p.2.total_stake
  let movement := track_stake_movements validator name current_total previous_total
  movement.2 ++
    [Emission.selfStake validator name status stake_info.self_stake,
     Emission.nominations validator name status stake_info.nominations,
     Emission.totalStake validator name status stake_info.total_stake,
     Emission.nominatorCount validator name status (stake_info.nominator_count : ℚ)] ++
    (if 0 < stake_info.rewards then
      [Emission.rewards validator name (toString current_era) stake_info.rewards]
    else [])

/-- `update_metrics` (source lines 299-364), as a transformer of the global
`previous_stakes` dict: the first component is the dict after the call (the
assignment `previous_stakes = validator_stakes` is the last statement of the
`try` body, so any exception leaves it untouched), the second is the emitted
gauge writes or the re-raised exception. -/
def update_metrics (c : ChainData) (previous_stakes : List (String × Snapshot)) :
    List (String × Snapshot) × Except Unit (List Emission) :=
  match c.validatorsList with
  | .error e => (previous_stakes, .error e)
  | .ok validators =>
      match c.sessionValidators with
      | .error e => (previous_stakes, .error e)
      | .ok active_validators =>
          match get_validator_stakes c validators with
          | .error e => (previous_stakes, .error e)
          | .ok validator_stakes =>
              let validators_id := get_identities c validators
              match c.activeEra with
              | .error e => (previous_stakes, .error e)
              | .ok current_era =>
                  (validator_stakes,
                   .ok ((validator_stakes.map fun p =>
                      emit_validator previous_stakes active_validators
                        validators_id current_era p.1 p.2).flatten))

/-! ## Concrete chain fixtures used by witnesses and counterexamples -/

/-- A chain whose every query succeeds with an empty / absent value. -/
def trivialChain : ChainData :=
  { validatorsList := .ok [], sessionValidators := .ok [], activeEra := .ok 0,
    exposure := fun _ _ => .ok none, rewardPoints := fun _ => .ok none,
    eraReward := fun _ => .ok none, superOf := fun _ => .ok none,
    identityOf := fun _ => .ok none }

/-- Reward points 30 of 100 for validator `v`, era pool 1000 CAPS. -/
def cx3 : ChainData :=
  { trivialChain with
    rewardPoints := fun _ => .ok (some [("v", 30), ("w", 70)]),
    eraReward := fun _ => .ok (some (1000 * E18)) }

/-- A reward-points table summing to zero. -/
def cx4 : ChainData :=
  { trivialChain with
    rewardPoints := fun _ => .ok (some [("a", 0)]),
    eraReward := fun _ => .ok (some (1000 * E18)) }

/-- Exposure succeeds (own 2 CAPS, total 3 CAPS, one nominator) but the
reward-points query raises. -/
def cx1 : ChainData :=
  { trivialChain with
    validatorsList := .ok ["V"],
    exposure := fun _ _ => .ok (some { own := 2 * E18, total := 3 * E18, others := ["n1"] }),
    rewardPoints := fun _ => .error () }

/-- Exposure raises for validator `V` and succeeds for every other
validator (own 1 CAPS, total 2 CAPS, no nominators). -/
def cx1w : ChainData :=
  { trivialChain with
    exposure := fun _ v =>
      if v == "V" then .error ()
      else .ok (some { own := 1 * E18, total := 2 * E18, others := [] }) }

/-- The active-era read raises. -/
def cx5 : ChainData :=
  { trivialChain with
    validatorsList := .ok ["V"],
    activeEra := .error () }

/-- A healthy chain for the snapshot invariant: own 1 CAPS, total 4 CAPS,
two nominators. -/
def cx6 : ChainData :=
  { trivialChain with
    exposure := fun _ _ =>
      .ok (some { own := 1 * E18, total := 4 * E18, others := ["n1", "n2"] }) }

/-- Wallet `w` is the sub-identity `alice` of parent `p`, and `p` has no
identity record at all. -/
def cx8 : ChainData :=
  { trivialChain with
    superOf := fun w => if w == "w" then .ok (some ("p", RawVal.raw "alice")) else .ok none }

/-- Wallet `w` is the sub-identity `alice` of parent `p`, and `p` has an
identity record displaying `Bob`. -/
def cx8b : ChainData :=
  { trivialChain with
    superOf := fun w => if w == "w" then .ok (some ("p", RawVal.raw "alice")) else .ok none,
    identityOf := fun w =>
      if w == "p" then
        .ok (some { display := RawVal.raw "Bob", legal := RawVal.noneVal,
                    web := RawVal.noneVal, riot := RawVal.noneVal,
                    email := RawVal.noneVal, twitter := RawVal.noneVal })
      else .ok none }

/-- The snapshot `cx1` produces for validator `V`: populated from its
exposure, with a zero reward. -/
def snapV : Snapshot :=
  { self_stake := 2, total_stake := 3, nominations := 1,
    nominator_count := 1, rewards := 0, slashes := 0 }

/-- The snapshot `cx6` produces for any validator. -/
def snapA : Snapshot :=
  { self_stake := 1, total_stake := 4, nominations := 3,
    nominator_count := 2, rewards := 0, slashes := 0 }

/-- The exposure query returns a falsy value for validator `V` and real
data (own 1 CAPS, total 2 CAPS) for every other validator. -/
def cx9 : ChainData :=
  { trivialChain with
    validatorsList := .ok ["V", "W"],
    exposure := fun _ v =>
      if v == "V" then .ok none
      else .ok (some { own := 1 * E18, total := 2 * E18, others := [] }) }

/-! ## Claim C2: trackMovement return value -/

/-- C2: `track_stake_movements` returns `(0, 0)` when the previous value is
absent; otherwise with `diff = current - previous` it returns `(diff, 0)`
when `diff > 0`, `(0, |diff|)` when `diff < 0`, and `(0, 0)` when
`diff = 0`; on every call at most one component of the pair is non-zero. -/
theorem track_movement_spec (validator name : String) (current : ℚ)
    (previous : Option ℚ) :
    (previous = none →
      (track_stake_movements validator name current previous).1 = (0, 0))
    ∧ (∀ p, previous = some p →
        (track_stake_movements validator name current previous).1 =
          if 0 < current - p then (current - p, 0)
          else if current - p < 0 then (0, |current - p|)
          else (0, 0))
    ∧ ((track_stake_movements validator name current previous).1.1 = 0
        ∨ (track_stake_movements validator name current previous).1.2 = 0) := by
  refine ⟨?_, ?_, ?_⟩
  · rintro rfl
    rfl
  · rintro p rfl
    simp only [track_stake_movements]
    split_ifs <;> rfl
  · cases previous with
    | none => exact Or.inr rfl
    | some p =>
        simp only [track_stake_movements]
        split_ifs <;> simp

/-- Witness for C2 at the spec's three worked examples and a first-cycle
call. -/
theorem track_movement_spec_witness :
    (track_stake_movements "v" "n" (100 : ℚ) none).1 = (0, 0)
    ∧ (track_stake_movements "v" "n" (100 : ℚ) (some 80)).1 = (20, 0)
    ∧ (track_stake_movements "v" "n" (80 : ℚ) (some 100)).1 = (0, 20)
    ∧ (track_stake_movements "v" "n" (100 : ℚ) (some 100)).1 = (0, 0) := by
  refine ⟨(track_movement_spec "v" "n" 100 none).1 rfl, ?_, ?_, ?_⟩
  · rw [(track_movement_spec "v" "n" 100 (some 80)).2.1 80 rfl]
    norm_num
  · rw [(track_movement_spec "v" "n" 80 (some 100)).2.1 100 rfl]
    norm_num
  · rw [(track_movement_spec "v" "n" 100 (some 100)).2.1 100 rfl]
    norm_num

/-! ## Claim C10: caps-in / caps-out gauge frame condition -/

/-- C10: when the previous stake is absent or equal to the current stake,
`track_stake_movements` performs no gauge write at all; when the difference
is non-zero it writes exactly one gauge, the caps-in gauge on a positive
difference and the caps-out gauge on a negative one. -/
theorem caps_gauges_frame (validator name : String) (current : ℚ)
    (previous : Option ℚ) :
    (previous = none →
      (track_stake_movements validator name current previous).2 = [])
    ∧ (previous = some current →
      (track_stake_movements validator name current previous).2 = [])
    ∧ (∀ p, previous = some p → current - p ≠ 0 →
        (track_stake_movements validator name current previous).2 =
          if 0 < current - p then
            [Emission.capsIn validator name "nomination" (current - p)]
          else
            [Emission.capsOut validator name "unstake" |current - p|]) := by
  refine ⟨?_, ?_, ?_⟩
  · rintro rfl
    rfl
  · rintro rfl
    simp [track_stake_movements]
  · rintro p rfl hne
    simp only [track_stake_movements]
    split_ifs with h1 h2
    · rfl
    · rfl
    · exact absurd (le_antisymm (not_lt.mp h1) (not_lt.mp h2)) hne

/-! ## Claim C3: proportional era reward formula -/

/-- C3: when the reward-points table and the era reward pool are both
readable and the table's points sum is non-zero, `get_era_rewards` returns
`(validatorPoints / totalPoints) * (rawPool / 1e18)` where the validator's
points are those of the first matching entry (0 when absent) and the total
is the sum over all entries. -/
theorem era_reward_formula (c : ChainData) (validator : String) (era : ℕ)
    (table : List (String × ℚ)) (rawPool : ℚ)
    (hpts : c.rewardPoints era = .ok (some table))
    (hpool : c.eraReward era = .ok (some rawPool))
    (htot : (table.map Prod.snd).sum ≠ 0) :
    get_era_rewards c validator era =
      (((table.find? fun e => e.1 == validator).map Prod.snd).getD 0
          / (table.map Prod.snd).sum)
        * (rawPool / E18) := by
  simp only [get_era_rewards, hpts, hpool, if_neg htot]

/-- Witness for C3 at the spec's worked example: points 30 of 100, pool
1000 CAPS, reward 300. -/
theorem era_reward_formula_witness : get_era_rewards cx3 "v" 0 = 300 := by
  rw [era_reward_formula cx3 "v" 0 [("v", 30), ("w", 70)] (1000 * E18) rfl rfl
    (by norm_num)]
  norm_num [List.find?, E18]

/-! ## Claim C4: zero total points is safe -/

/-- C4: when the reward-points table is readable, every entry's points are
non-negative and they sum to zero, `get_era_rewards` substitutes 1 for the
total and returns 0 (no division-by-zero failure is possible). -/
theorem era_reward_zero_total (c : ChainData) (validator : String) (era : ℕ)
    (table : List (String × ℚ))
    (hpts : c.rewardPoints era = .ok (some table))
    (hnn : ∀ e ∈ table, 0 ≤ e.2)
    (hsum : (table.map Prod.snd).sum = 0) :
    get_era_rewards c validator era = 0 := by
  have hall : ∀ x ∈ table.map Prod.snd, x = (0 : ℚ) := by
    intro x hx
    induction table with
    | nil => cases hx
    | cons a t ih =>
        have ha : 0 ≤ a.2 := hnn a (List.mem_cons_self a t)
        have ht : 0 ≤ (t.map Prod.snd).sum := by
          apply List.sum_nonneg
          intro y hy
          rcases List.mem_map.mp hy with ⟨e, he, rfl⟩
          exact hnn e (List.mem_cons_of_mem a he)
        rw [List.map_cons, List.sum_cons] at hsum
        rcases List.mem_map.mp hx with ⟨e, he, rfl⟩
        rcases List.mem_cons.mp he with rfl | he2
        · linarith
        · have he3 : 0 ≤ e.2 := hnn e (List.mem_cons_of_mem a he2)
          have : (t.map Prod.snd).sum ≤ 0 := by linarith
          have hsum0 : (t.map Prod.snd).sum = 0 := le_antisymm this ht
          have hall2 : ∀ y ∈ t.map Prod.snd, (0 : ℚ) ≤ y := by
            intro y hy
            rcases List.mem_map.mp hy with ⟨d, hd, rfl⟩
            exact hnn d (List.mem_cons_of_mem a hd)
          have hle : e.2 ≤ (t.map Prod.snd).sum :=
            List.single_le_sum hall2 e.2 (List.mem_map_of_mem Prod.snd he2)
          linarith
  have hvp : ((table.find? fun e => e.1 == validator).map Prod.snd).getD 0
      = (0 : ℚ) := by
    cases hf : table.find? fun e => e.1 == validator with
    | none => rfl
    | some e =>
        have he : e ∈ table := List.mem_of_find?_eq_some hf
        have := hall e.2 (List.mem_map_of_mem Prod.snd he)
        simp [this]
  simp only [get_era_rewards, hpts]
  cases c.eraReward era with
  | error u => rfl
  | ok o =>
      cases o with
      | none => rfl
      | some rawPool => simp [hvp, hsum]

/-- Witness for C4: a single-entry table with zero points yields reward 0. -/
theorem era_reward_zero_total_witness : get_era_rewards cx4 "v" 0 = 0 := by
  have h := era_reward_zero_total cx4 "v" 0 [("a", 0)] rfl ?_ ?_
  · exact h
  · rintro e he
    simp only [List.mem_singleton] at he
    subst he
    norm_num
  · simp

/-! ## Helper lemmas about the stakes association list -/

/-- Skipped validators add no entry. -/
theorem stakesOf_cons_none (f : String → Option Snapshot) (x : String)
    (t : List String) (hfx : f x = none) :
    stakesOf f (x :: t) = stakesOf f t := by
  simp [stakesOf, List.filterMap_cons, hfx]

/-- Kept validators add their keyed entry at the front. -/
theorem stakesOf_cons_some (f : String → Option Snapshot) (x : String)
    (t : List String) (s : Snapshot) (hfx : f x = some s) :
    stakesOf f (x :: t) = (x, s) :: stakesOf f t := by
  simp [stakesOf, List.filterMap_cons, hfx]

/-- Dict lookup hits a front entry with the looked-up key. -/
theorem find?_key_cons_self (v : String) (s : Snapshot)
    (l : List (String × Snapshot)) :
    (((v, s) :: l).find? fun p => p.1 == v) = some (v, s) := by
  simp [List.find?_cons]

/-- Dict lookup skips a front entry with a different key. -/
theorem find?_key_cons_ne (x w : String) (hx : x ≠ w) (s : Snapshot)
    (l : List (String × Snapshot)) :
    (((x, s) :: l).find? fun p => p.1 == w) = l.find? fun p => p.1 == w := by
  simp [List.find?_cons, hx]

/-- A validator whose processing yields no entry is absent from the stakes
dict, whatever the validator list. -/
theorem stakes_find?_absent (f : String → Option Snapshot) (v : String)
    (hfv : f v = none) (vs : List String) :
    ((stakesOf f vs).find? fun p => p.1 == v) = none := by
  induction vs with
  | nil => rfl
  | cons x t ih =>
      by_cases hx : x = v
      · subst hx
        rw [stakesOf_cons_none f x t hfv]
        exact ih
      · cases hfx : f x with
        | none =>
            rw [stakesOf_cons_none f x t hfx]
            exact ih
        | some s =>
            rw [stakesOf_cons_some f x t s hfx, find?_key_cons_ne x v hx s _]
            exact ih

/-- A validator that occurs in the list and whose processing yields a
snapshot is mapped to that snapshot in the stakes dict. -/
theorem stakes_find?_present (f : String → Option Snapshot) (v : String)
    (s0 : Snapshot) (hfv : f v = some s0) (vs : List String) (hv : v ∈ vs) :
    ((stakesOf f vs).find? fun p => p.1 == v) = some (v, s0) := by
  induction vs with
  | nil => cases hv
  | cons x t ih =>
      by_cases hx : x = v
      · subst hx
        rw [stakesOf_cons_some f x t s0 hfv]
        exact find?_key_cons_self x s0 _
      · have hv2 : v ∈ t := by
          rcases List.mem_cons.mp hv with h | h
          · exact absurd h.symm hx
          · exact h
        cases hfx : f x with
        | none =>
            rw [stakesOf_cons_none f x t hfx]
            exact ih hv2
        | some s =>
            rw [stakesOf_cons_some f x t s hfx, find?_key_cons_ne x v hx s _]
            exact ih hv2

/-- Removing every occurrence of one validator from the input list never
changes a different validator's entry in the stakes dict. -/
theorem stakes_find?_erase (f : String → Option Snapshot) (v w : String)
    (hvw : w ≠ v) (vs : List String) :
    ((stakesOf f vs).find? fun p => p.1 == w)
      = ((stakesOf f (vs.filter fun x => x != v)).find? fun p => p.1 == w) := by
  induction vs with
  | nil => rfl
  | cons x t ih =>
      by_cases hx : x = v
      · subst hx
        rw [List.filter_cons_of_neg (by simp)]
        cases hfx : f x with
        | none =>
            rw [stakesOf_cons_none f x t hfx]
            exact ih
        | some s =>
            rw [stakesOf_cons_some f x t s hfx,
              find?_key_cons_ne x w (Ne.symm hvw) s _]
            exact ih
      · rw [List.filter_cons_of_pos (by simp [hx])]
        cases hfx : f x with
        | none =>
            rw [stakesOf_cons_none f x t hfx, stakesOf_cons_none f x _ hfx]
            exact ih
        | some s =>
            rw [stakesOf_cons_some f x t s hfx, stakesOf_cons_some f x _ s hfx]
            by_cases hxw : x = w
            · subst hxw
              rw [find?_key_cons_self x s _, find?_key_cons_self x s _]
            · rw [find?_key_cons_ne x w hxw s _, find?_key_cons_ne x w hxw s _]
              exact ih

/-! ## Claim C1 (corrected): per-validator fault isolation -/

/-- C1 counterexample: when only the reward-points lookup raises, the
validator's snapshot stays populated from its exposure data with a zero
reward; it is not the all-zero snapshot the claim predicts for a
reward-lookup exception. -/
theorem reward_error_not_zeroed_cx :
    cx1.rewardPoints 0 = .error ()
    ∧ get_validator_stakes cx1 ["V"] = .ok [("V", snapV)]
    ∧ (([("V", snapV)].find? fun p => p.1 == "V") = some ("V", snapV))
    ∧ snapV ≠ zeroSnapshot := by
  refine ⟨rfl, ?_, ?_, ?_⟩
  · norm_num [get_validator_stakes, stakesOf, process_validator, get_era_rewards,
      get_era_slashes, cx1, trivialChain, snapV, E18, List.filterMap_cons]
  · simp [List.find?_cons]
  · simp [snapV, zeroSnapshot]

/-- C1 (amended): if the exposure read or balance conversion of one
validator raises while the active-era read succeeds, no exception reaches
the caller of `get_validator_stakes`: it returns a dict in which the
failing validator (when listed) is mapped to the all-zero snapshot, and
every other validator's entry equals the entry it would have were the
failing validator absent from the input.  Reward-lookup exceptions are
excluded: they are swallowed inside `get_era_rewards` and only zero the
reward field. -/
theorem failing_exposure_zeroed_isolated (c : ChainData)
    (validators : List String) (v : String) (era : ℕ)
    (hEra : c.activeEra = .ok era)
    (hfail : c.exposure era v = .error ()) :
    ∃ stakes, get_validator_stakes c validators = .ok stakes
      ∧ (v ∈ validators →
          (stakes.find? fun p => p.1 == v) = some (v, zeroSnapshot))
      ∧ ∃ rest,
          get_validator_stakes c (validators.filter fun x => x != v) = .ok rest
          ∧ ∀ w, w ≠ v →
              (stakes.find? fun p => p.1 == w)
                = (rest.find? fun p => p.1 == w) := by
  refine ⟨stakesOf (process_validator c era) validators,
    by simp [get_validator_stakes, hEra], ?_,
    stakesOf (process_validator c era) (validators.filter fun x => x != v),
    by simp [get_validator_stakes, hEra], ?_⟩
  · intro hv
    exact stakes_find?_present _ v zeroSnapshot
      (by simp [process_validator, hfail]) validators hv
  · intro w hw
    exact stakes_find?_erase (process_validator c era) v w hw validators

/-- Witness for the amended C1 on a concrete chain where validator `V`'s
exposure read raises and validator `W`'s succeeds. -/
theorem failing_exposure_zeroed_isolated_witness :
    ∃ stakes, get_validator_stakes cx1w ["W", "V"] = .ok stakes
      ∧ ("V" ∈ ["W", "V"] →
          (stakes.find? fun p => p.1 == "V") = some ("V", zeroSnapshot))
      ∧ ∃ rest,
          get_validator_stakes cx1w (["W", "V"].filter fun x => x != "V") = .ok rest
          ∧ ∀ w, w ≠ "V" →
              (stakes.find? fun p => p.1 == w)
                = (rest.find? fun p => p.1 == w) :=
  failing_exposure_zeroed_isolated cx1w ["W", "V"] "V" 0 rfl rfl

/-! ## Claim C5: fatal era-read failure preserves previous state -/

/-- C5: when the active-era read raises, `get_validator_stakes` re-raises
for every validator list, and `update_metrics` propagates the exception
while leaving the previous-state map exactly as it was. -/
theorem era_read_failure_frame (c : ChainData)
    (prev : List (String × Snapshot))
    (hEra : c.activeEra = .error ()) :
    (∀ vs, get_validator_stakes c vs = .error ())
    ∧ update_metrics c prev = (prev, .error ()) := by
  have hgs : ∀ vs, get_validator_stakes c vs = .error () := by
    intro vs
    simp [get_validator_stakes, hEra]
  refine ⟨hgs, ?_⟩
  cases hvl : c.validatorsList with
  | error u =>
      cases u
      simp [update_metrics, hvl]
  | ok vs2 =>
      cases hsv : c.sessionValidators with
      | error u =>
          cases u
          simp [update_metrics, hvl, hsv]
      | ok act =>
          simp [update_metrics, hvl, hsv, hgs]

/-- Witness for C5 on a concrete chain whose era read raises and whose
previous-state map is empty. -/
theorem era_read_failure_frame_witness :
    (∀ vs, get_validator_stakes cx5 vs = .error ())
    ∧ update_metrics cx5 [] = ([], .error ()) :=
  era_read_failure_frame cx5 [] rfl

/-! ## Claim C6: snapshot construction invariant -/

/-- C6: every snapshot in any dict returned by `get_validator_stakes`
satisfies `total_stake = self_stake + nominations`, whether populated from
exposure data or zeroed on error. -/
theorem snapshot_stake_invariant (c : ChainData) (validators : List String)
    (stakes : List (String × Snapshot))
    (hok : get_validator_stakes c validators = .ok stakes) :
    ∀ p ∈ stakes, p.2.total_stake = p.2.self_stake + p.2.nominations := by
  intro p hp
  cases hEra : c.activeEra with
  | error u =>
      simp only [get_validator_stakes, hEra] at hok
      exact Except.noConfusion hok
  | ok era =>
      simp only [get_validator_stakes, hEra, Except.ok.injEq] at hok
      subst hok
      obtain ⟨x, hx, s, hpv, hps⟩ :
          ∃ x ∈ validators, ∃ s, process_validator c era x = some s ∧ (x, s) = p := by
        simpa [stakesOf] using hp
      subst hps
      simp only [process_validator] at hpv
      cases hexp : c.exposure era x with
          | error u =>
              rw [hexp] at hpv
              injection hpv with h3
              rw [← h3]
              simp [zeroSnapshot]
          | ok o =>
              cases o with
              | none =>
                  rw [hexp] at hpv
                  exact Option.noConfusion hpv
              | some exp =>
                  rw [hexp] at hpv
                  injection hpv with h3
                  rw [← h3]
                  ring

/-- Witness for C6 on a concrete healthy chain: the populated snapshot
satisfies the invariant. -/
theorem snapshot_stake_invariant_witness :
    snapA.total_stake = snapA.self_stake + snapA.nominations :=
  snapshot_stake_invariant cx6 ["A"] [("A", snapA)] (by
    norm_num [get_validator_stakes, stakesOf, process_validator,
      get_era_rewards, get_era_slashes, cx6, trivialChain, snapA, E18,
      List.filterMap_cons]) ("A", snapA) (List.mem_singleton.mpr rfl)

/-! ## Claim C9: falsy exposure silently omits the validator -/

/-- C9: a validator whose exposure query returns a falsy value without
raising gets no entry at all in the returned stakes dict — neither
populated nor zeroed — and hence no entry in the next cycle's
previous-state map when the cycle completes. -/
theorem falsy_exposure_absent (c : ChainData) (validators : List String)
    (v : String) (era : ℕ)
    (hEra : c.activeEra = .ok era)
    (hexp : c.exposure era v = .ok none) :
    ∃ stakes, get_validator_stakes c validators = .ok stakes
      ∧ ((stakes.find? fun p => p.1 == v) = none)
      ∧ ∀ prev newPrev ems,
          update_metrics c prev = (newPrev, .ok ems) →
          ((newPrev.find? fun p => p.1 == v) = none) := by
  have hproc : process_validator c era v = none := by
    simp [process_validator, hexp]
  refine ⟨stakesOf (process_validator c era) validators,
    by simp [get_validator_stakes, hEra],
    stakes_find?_absent _ v hproc validators, ?_⟩
  rintro prev newPrev ems h
  cases hvl : c.validatorsList with
  | error u =>
      simp only [update_metrics, hvl] at h
      exact Except.noConfusion (congrArg Prod.snd h)
  | ok vs2 =>
      cases hsv : c.sessionValidators with
      | error u =>
          simp only [update_metrics, hvl, hsv] at h
          exact Except.noConfusion (congrArg Prod.snd h)
      | ok act =>
          simp only [update_metrics, hvl, hsv, get_validator_stakes, hEra] at h
          have h1 : stakesOf (process_validator c era) vs2 = newPrev :=
            congrArg Prod.fst h
          rw [← h1]
          exact stakes_find?_absent _ v hproc vs2

/-- Witness for C9 on a concrete chain where validator `V`'s exposure is
falsy and validator `W`'s is populated. -/
theorem falsy_exposure_absent_witness :
    ∃ stakes, get_validator_stakes cx9 ["V", "W"] = .ok stakes
      ∧ ((stakes.find? fun p => p.1 == "V") = none)
      ∧ ∀ prev newPrev ems,
          update_metrics cx9 prev = (newPrev, .ok ems) →
          ((newPrev.find? fun p => p.1 == "V") = none) :=
  falsy_exposure_absent cx9 ["V", "W"] "V" 0 rfl rfl

/-! ## Claim C7: rewards gauge written iff reward is positive -/

/-- Stake-movement gauge writes are never rewards-gauge writes. -/
theorem movement_no_rewards (validator name : String) (current : ℚ)
    (previous : Option ℚ) :
    ((track_stake_movements validator name current previous).2.filter
      Emission.isRewards) = [] := by
  cases previous with
  | none => rfl
  | some p =>
      simp only [track_stake_movements]
      split_ifs <;> rfl

/-- C7: in the per-validator emission step of `update_metrics`, the rewards
gauge is written — once, with the snapshot's reward value and the
address/name/era labels — exactly when the snapshot's reward is strictly
positive, while the self-stake, nominations, total-stake and
nominator-count gauges are written in every case. -/
theorem rewards_gauge_guard (previous_stakes : List (String × Snapshot))
    (active_validators : List String)
    (validators_id : List (String × IdRecord)) (current_era : ℕ)
    (validator : String) (stake_info : Snapshot) :
    (((emit_validator previous_stakes active_validators validators_id
          current_era validator stake_info).filter Emission.isRewards)
        = if 0 < stake_info.rewards then
            [Emission.rewards validator (resolve_name validators_id validator)
              (toString current_era) stake_info.rewards]
          else [])
    ∧ Emission.selfStake validator (resolve_name validators_id validator)
        (resolve_status active_validators validator) stake_info.self_stake
        ∈ emit_validator previous_stakes active_validators validators_id
            current_era validator stake_info
    ∧ Emission.nominations validator (resolve_name validators_id validator)
        (resolve_status active_validators validator) stake_info.nominations
        ∈ emit_validator previous_stakes active_validators validators_id
            current_era validator stake_info
    ∧ Emission.totalStake validator (resolve_name validators_id validator)
        (resolve_status active_validators validator) stake_info.total_stake
        ∈ emit_validator previous_stakes active_validators validators_id
            current_era validator stake_info
    ∧ Emission.nominatorCount validator (resolve_name validators_id validator)
        (resolve_status active_validators validator)
        (stake_info.nominator_count : ℚ)
        ∈ emit_validator previous_stakes active_validators validators_id
            current_era validator stake_info := by
  refine ⟨?_, ?_, ?_, ?_, ?_⟩
  · simp only [emit_validator, List.filter_append, movement_no_rewards,
      List.nil_append, apply_ite (List.filter Emission.isRewards)]
    split_ifs <;> rfl
  · simp [emit_validator]
  · simp [emit_validator]
  · simp [emit_validator]
  · simp [emit_validator]

/-! ## Claim C8 (corrected): sub-identity display formatting -/

/-- C8 counterexample: wallet `w` is the sub-identity `alice` of parent
`p`, and `p` has no identity record; the resolved display is the empty
string of the default record, not `alice` as the claim predicts for a
parent without a display name. -/
theorem sub_identity_no_record_cx :
    cx8.superOf "w" = .ok (some ("p", RawVal.raw "alice"))
    ∧ extract_identity_value (RawVal.raw "alice") = "alice"
    ∧ cx8.identityOf "p" = .ok none
    ∧ (get_identity cx8 "w").display = ""
    ∧ (get_identity cx8 "w").display ≠ "alice" := by
  refine ⟨by simp [cx8, trivialChain], rfl, rfl, ?_, ?_⟩
  · simp [get_identity, cx8, trivialChain, emptyIdentity]
  · simp [get_identity, cx8, trivialChain, emptyIdentity]

/-- C8 (amended): when a wallet is the sub-identity of a parent and the
parent's `IdentityOf` record exists, the resolved display is
`parentDisplay/subName` if the parent's display is non-empty, else just
the sub name; when the parent has no identity record (or its lookup
fails), the display falls back to the default empty string instead. -/
theorem sub_identity_display (c : ChainData) (wallet parent_wallet : String)
    (sub_raw : RawVal) (info : RawIdInfo)
    (hsup : c.superOf wallet = .ok (some (parent_wallet, sub_raw)))
    (hid : c.identityOf parent_wallet = .ok (some info)) :
    (get_identity c wallet).display =
      if extract_identity_value info.display = "" then
        extract_identity_value sub_raw
      else
        extract_identity_value info.display ++ "/"
          ++ extract_identity_value sub_raw := by
  simp only [get_identity, hsup, hid]

/-- Witness for the amended C8: sub-identity `alice` under a parent
displaying `Bob` resolves to `Bob/alice`. -/
theorem sub_identity_display_witness :
    (get_identity cx8b "w").display = "Bob/alice" := by
  rw [sub_identity_display cx8b "w" "p" (RawVal.raw "alice")
    { display := RawVal.raw "Bob", legal := RawVal.noneVal,
      web := RawVal.noneVal, riot := RawVal.noneVal,
      email := RawVal.noneVal, twitter := RawVal.noneVal }
    (by simp [cx8b, trivialChain]) (by simp [cx8b, trivialChain])]
  rfl

/-- Witness for C10: no gauge write on a first cycle and on an unchanged
stake; exactly one caps-in write on an inflow of 1. -/
theorem caps_gauges_frame_witness :
    (track_stake_movements "v" "n" (5 : ℚ) none).2 = []
    ∧ (track_stake_movements "v" "n" (5 : ℚ) (some 5)).2 = []
    ∧ (track_stake_movements "v" "n" (5 : ℚ) (some 4)).2
        = [Emission.capsIn "v" "n" "nomination" 1] := by
  refine ⟨(caps_gauges_frame "v" "n" 5 none).1 rfl,
    (caps_gauges_frame "v" "n" 5 (some 5)).2.1 rfl, ?_⟩
  rw [(caps_gauges_frame "v" "n" 5 (some 4)).2.2 4 rfl (by norm_num)]
  norm_num
